import Mathlib

/-!
Verification of the PCRSIM gesture-interpretation and control-mapping engine.

The definitions below are a shallow embedding of the Python sources:
  - src/utils/math_utils.py   (shared smoothing / normalization utilities)
  - basteria_mediapipe.py     (main dual-hand viewer: mode state machine,
                               camera controller, effect controllers, PCR model)
  - basteria_viewer_mediapipe.py (earlier viewer variant; relevant for the
                               missing-hand reset of the last-position tracker)

Python floats are modelled as rationals; the only irrational operation in the
engine, math.sqrt inside the velocity computation, is modelled over the reals
(and, where the frame tick needs to branch on a velocity comparison, by an
exactly equivalent decidable comparison on squared magnitudes).  Python code
that can raise (here: ZeroDivisionError in unguarded divisions) is modelled
with Option, returning none exactly where the Python call raises.
-/

/-! ### src/utils/math_utils.py -/

/-- lerp(a, b, t) = a + t * (b - a)  (math_utils.py, lines 26-38). -/
def lerp (a b t : ℚ) : ℚ := a + t * (b - a)

/-- smooth_value(current, target, smoothing) = current + (target - current) * smoothing
(math_utils.py, lines 57-69); the exponential-smoothing primitive. -/
def smooth_value (current target smoothing : ℚ) : ℚ :=
  current + (target - current) * smoothing

/-- clamp(value, min_val, max_val) = max(min_val, min(max_val, value))
(math_utils.py, lines 72-84). -/
def clamp (value min_val max_val : ℚ) : ℚ := max min_val (min max_val value)

/-- map_range(value, from_min, from_max, to_min, to_max) (math_utils.py, lines
87-105).  The division (value - from_min) / (from_max - from_min) is not
guarded: when from_max = from_min the Python call raises ZeroDivisionError,
modelled here as none. -/
def map_range (value from_min from_max to_min to_max : ℚ) : Option ℚ :=
  if from_max - from_min = 0 then none
  else some (to_min + ((value - from_min) / (from_max - from_min)) * (to_max - to_min))

/-- smooth_step(edge0, edge1, x) (math_utils.py, lines 108-124).  The division
(x - edge0) / (edge1 - edge0) is not guarded: when edge1 = edge0 the Python
call raises ZeroDivisionError, modelled here as none. -/
def smooth_step (edge0 edge1 x : ℚ) : Option ℚ :=
  if edge1 - edge0 = 0 then none
  else
    let t := clamp ((x - edge0) / (edge1 - edge0)) 0 1
    some (t * t * (3 - 2 * t))

/-- Repeated application of smooth_value with a fixed target, as performed by
callers that smooth a running value one step per frame. -/
def iterateSmooth (target a x0 : ℚ) : ℕ → ℚ
  | 0 => x0
  | n + 1 => smooth_value (iterateSmooth target a x0 n) target a

/-! ### Pinch normalizations (basteria_mediapipe.py) -/

/-- The inverted piecewise-linear ramp of the BASTERIA branch of
process_left_hand (basteria_mediapipe.py, lines 641-652): min_distance 0.015,
max_distance 0.1; below min the factor is 1, on the ramp it is
1 - (d - min)/(max - min), at and above max it is 0. -/
def bacteriaNormalizedFactor (pinch_distance : ℚ) : ℚ :=
  let min_distance : ℚ := 15/1000
  let max_distance : ℚ := 1/10
  if pinch_distance < min_distance then 1
  else if pinch_distance < max_distance then
    1 - (pinch_distance - min_distance) / (max_distance - min_distance)
  else 0

/-- The right-hand zoom normalization of process_right_hand
(basteria_mediapipe.py, lines 570-576): min_dist 0.02, max_dist 0.20,
normalized_distance = max(0, min(1, (d - min)/(max - min))). -/
def rightHandNormalizedDistance (pinch_distance : ℚ) : ℚ :=
  let min_dist : ℚ := 2/100
  let max_dist : ℚ := 20/100
  max 0 (min 1 ((pinch_distance - min_dist) / (max_dist - min_dist)))

/-- Clamp-form restatement of bacteriaNormalizedFactor, used to derive
monotonicity and continuity. -/
lemma bacteriaNormalizedFactor_eq_clamp (d : ℚ) :
    bacteriaNormalizedFactor d = max 0 (min 1 (1 - (d - 15/1000) / (1/10 - 15/1000))) := by
  unfold bacteriaNormalizedFactor
  dsimp only
  split_ifs with h1 h2
  · have hr : (d - 15/1000) / (1/10 - 15/1000) < 0 := by
      apply div_neg_of_neg_of_pos <;> linarith
    have : (1 : ℚ) < 1 - (d - 15/1000) / (1/10 - 15/1000) := by linarith
    rw [min_eq_left (le_of_lt this), max_eq_right (by norm_num)]
  · have hr0 : (0 : ℚ) ≤ (d - 15/1000) / (1/10 - 15/1000) := by
      apply div_nonneg <;> linarith
    have hr1 : (d - 15/1000) / (1/10 - 15/1000) < 1 := by
      rw [div_lt_one (by norm_num)]; linarith
    rw [min_eq_right (by linarith), max_eq_right (by linarith)]
  · have hr1 : (1 : ℚ) ≤ (d - 15/1000) / (1/10 - 15/1000) := by
      rw [le_div_iff₀ (by norm_num)]; linarith
    rw [min_eq_right (by linarith), max_eq_left (by linarith)]

lemma bacteriaNormalizedFactor_antitone : Antitone bacteriaNormalizedFactor := by
  intro x y hxy
  rw [bacteriaNormalizedFactor_eq_clamp, bacteriaNormalizedFactor_eq_clamp]
  gcongr

lemma bacteriaNormalizedFactor_continuous : Continuous bacteriaNormalizedFactor := by
  have h : bacteriaNormalizedFactor =
      fun d => max 0 (min 1 (1 - (d - 15/1000) / (1/10 - 15/1000))) := by
    funext d; exact bacteriaNormalizedFactor_eq_clamp d
  rw [h]
  fun_prop

lemma rightHandNormalizedDistance_monotone : Monotone rightHandNormalizedDistance := by
  intro x y hxy
  unfold rightHandNormalizedDistance
  dsimp only
  gcongr

lemma rightHandNormalizedDistance_continuous : Continuous rightHandNormalizedDistance := by
  unfold rightHandNormalizedDistance
  fun_prop

/-! ### PCRModel (basteria_mediapipe.py, lines 180-227) -/

/-- A PCR fragment record: position, rotation angle, rotation axis, remaining
life (basteria_mediapipe.py, line 220). -/
structure Fragment where
  pos : ℚ × ℚ × ℚ
  angle : ℚ
  axis : ℚ × ℚ × ℚ
  life : ℤ
deriving DecidableEq

/-- The randomly drawn data of one spawned fragment (position, angle, axis);
np.random draws are modelled by passing the drawn values as parameters. -/
structure RandFragment where
  pos : ℚ × ℚ × ℚ
  angle : ℚ
  axis : ℚ × ℚ × ℚ
deriving DecidableEq

/-- max_fragments = 200 (basteria_mediapipe.py, line 185). -/
def max_fragments : ℕ := 200

/-- fragment_lifespan = 180 (basteria_mediapipe.py, line 186). -/
def fragment_lifespan : ℤ := 180

/-- The fragment collection of PCRModel.  The loaded base mesh is a rendering
concern and is not part of the control state. -/
structure PCRModel where
  fragments : List Fragment
deriving DecidableEq

/-- A fragment as appended by PCRModel.update: random position / rotation and
life = fragment_lifespan. -/
def spawnFragment (r : RandFragment) : Fragment :=
  { pos := r.pos, angle := r.angle, axis := r.axis, life := fragment_lifespan }

/-- One iteration of the spawn loop in PCRModel.update: append one fragment if
the population is still below max_fragments. -/
def spawnStep (frags : List Fragment) (r : RandFragment) : List Fragment :=
  if frags.length < max_fragments then frags ++ [spawnFragment r] else frags

/-- decay_rate = 10 if hand_velocity < 0.01 else 1 (basteria_mediapipe.py,
line 224). -/
def pcrDecayRate (hand_velocity : ℚ) : ℤ :=
  if hand_velocity < 1/100 then 10 else 1

/-- PCRModel.update with the two comparisons on hand_velocity already decided
(spawn_cond decides hand_velocity > 0.05, decay_rate is pcrDecayRate):
spawn up to 2 fragments when the velocity is high and the cap allows, then
drop fragments with life <= 0, then decrement every remaining life by
decay_rate (basteria_mediapipe.py, lines 203-227). -/
def PCRModel.updateCore (m : PCRModel) (spawn_cond : Bool) (decay_rate : ℤ)
    (r0 r1 : RandFragment) : PCRModel :=
  let frags :=
    if spawn_cond ∧ m.fragments.length < max_fragments then
      spawnStep (spawnStep m.fragments r0) r1
    else m.fragments
  let alive := frags.filter (fun f => 0 < f.life)
  { fragments := alive.map (fun f => { f with life := f.life - decay_rate }) }

/-- PCRModel.update(hand_velocity) (basteria_mediapipe.py, lines 203-227). -/
def PCRModel.update (m : PCRModel) (hand_velocity : ℚ) (r0 r1 : RandFragment) : PCRModel :=
  m.updateCore (decide (1/20 < hand_velocity)) (pcrDecayRate hand_velocity) r0 r1

/-- Iterated PCRModel.update from the initial empty collection, with an
arbitrary stream of velocities and random draws. -/
def iterPCRUpdate (vs : ℕ → ℚ) (rs : ℕ → RandFragment × RandFragment) : ℕ → PCRModel
  | 0 => { fragments := [] }
  | n + 1 => (iterPCRUpdate vs rs n).update (vs n) (rs n).1 (rs n).2

/-! ### Left-hand history buffer and velocity
(basteria_mediapipe.py, lines 350 and 626-637) -/

/-- One entry of left_hand_history: a 2D wrist position and a timestamp. -/
structure HandSample where
  pos : ℚ × ℚ
  time : ℚ
deriving DecidableEq

/-- Appending to collections.deque(maxlen=5): the new sample goes to the right,
the oldest entry drops from the left once 5 entries are held. -/
def pushHistory (history : List HandSample) (x : HandSample) : List HandSample :=
  if history.length < 5 then history ++ [x] else history.tail ++ [x]

/-- The velocity computed in the PCR branch of process_left_hand
(basteria_mediapipe.py, lines 630-637): 0 unless the history holds more than 2
samples; otherwise the Euclidean distance between the oldest and the newest
sample divided by their time difference, guarded by delta_time > 0. -/
noncomputable def handVelocity (history : List HandSample) : ℝ :=
  if h : 2 < history.length then
    have hne : history ≠ [] := by
      intro hnil
      rw [hnil] at h
      simp at h
    let s := history.head hne
    let e := history.getLast hne
    let delta_time := e.time - s.time
    let dist := Real.sqrt (((e.pos.1 - s.pos.1 : ℚ) : ℝ) ^ 2 + ((e.pos.2 - s.pos.2 : ℚ) : ℝ) ^ 2)
    if 0 < delta_time then dist / ((delta_time : ℚ) : ℝ) else 0
  else 0

/-- Decidable comparison equivalent to handVelocity history > c for c >= 0,
comparing squared magnitudes so that the frame tick stays executable. -/
def velocityGT (history : List HandSample) (c : ℚ) : Bool :=
  if h : 2 < history.length then
    have hne : history ≠ [] := by
      intro hnil
      rw [hnil] at h
      simp at h
    let s := history.head hne
    let e := history.getLast hne
    let delta_time := e.time - s.time
    let dist_sq := (e.pos.1 - s.pos.1) ^ 2 + (e.pos.2 - s.pos.2) ^ 2
    if 0 < delta_time then decide ((c * delta_time) ^ 2 < dist_sq) else decide (c < 0)
  else decide (c < 0)

/-- Decidable comparison equivalent to handVelocity history < c for c >= 0. -/
def velocityLT (history : List HandSample) (c : ℚ) : Bool :=
  if h : 2 < history.length then
    have hne : history ≠ [] := by
      intro hnil
      rw [hnil] at h
      simp at h
    let s := history.head hne
    let e := history.getLast hne
    let delta_time := e.time - s.time
    let dist_sq := (e.pos.1 - s.pos.1) ^ 2 + (e.pos.2 - s.pos.2) ^ 2
    if 0 < delta_time then decide (dist_sq < (c * delta_time) ^ 2) else decide (0 < c)
  else decide (0 < c)

/-! ### BasteriaViewerMediaPipe state and frame tick (basteria_mediapipe.py) -/

/-- The enzyme attachment state of EnzymeModel (basteria_mediapipe.py,
lines 248-250). -/
structure EnzymeState where
  enzyme_position : ℚ × ℚ × ℚ
  is_attached : Bool
  attachment_progress : ℚ
deriving DecidableEq

/-- EnzymeModel.attach_enzyme(attachment_factor) (basteria_mediapipe.py,
lines 270-284): linear interpolation of the enzyme position between
start (0,5,1) and target (0,1,1); attached once the factor reaches 0.99. -/
def attach_enzyme (e : EnzymeState) (attachment_factor : ℚ) : EnzymeState :=
  let target_position : ℚ × ℚ × ℚ := (0, 1, 1)
  let start_position : ℚ × ℚ × ℚ := (0, 5, 1)
  { e with
    enzyme_position :=
      ((1 - attachment_factor) * start_position.1 + attachment_factor * target_position.1,
       (1 - attachment_factor) * start_position.2.1 + attachment_factor * target_position.2.1,
       (1 - attachment_factor) * start_position.2.2 + attachment_factor * target_position.2.2),
    attachment_progress := attachment_factor,
    is_attached := decide (99/100 ≤ attachment_factor) }

/-- The mutable control state of BasteriaViewerMediaPipe
(basteria_mediapipe.py, __init__, lines 330-362 and 404-411).  Mode indices
into the states list: 0 = BASTERIA, 1 = ADN, 2 = ENZYME, 3 = PCR.
Point-cloud data is a rendering concern; of the per-mode models the state
keeps the control-relevant parts: the enzyme attachment state, the PCR
fragment collection, the last ADN strand-separation factor passed to
separate_strands, and the helicase z position. -/
structure ViewerState where
  camera_distance : ℚ
  camera_rotation_x : ℚ
  camera_rotation_y : ℚ
  gesture_cooldown : ℕ
  current_state_index : Fin 4
  hand_separation : ℚ
  left_hand_history : List HandSample
  left_hand_present_this_frame : Bool
  last_right_hand_pos : Option (ℚ × ℚ)
  shake_intensity : ℚ
  color_blend_factor : ℚ
  model_opacity : ℚ
  model_color : ℚ × ℚ × ℚ
  enzyme : EnzymeState
  pcr : PCRModel
  adn_separation_factor : ℚ
  helicase_z : ℚ
deriving DecidableEq

/-- The state right after BasteriaViewerMediaPipe.__init__. -/
def initialViewerState : ViewerState :=
  { camera_distance := 15
    camera_rotation_x := 0
    camera_rotation_y := 0
    gesture_cooldown := 0
    current_state_index := 0
    hand_separation := 0
    left_hand_history := []
    left_hand_present_this_frame := false
    last_right_hand_pos := none
    shake_intensity := 0
    color_blend_factor := 0
    model_opacity := 1
    model_color := (1, 1, 1)
    enzyme := { enzyme_position := (0, 5, 0), is_attached := false, attachment_progress := 0 }
    pcr := { fragments := [] }
    adn_separation_factor := 0
    helicase_z := 0 }

/-- touch_threshold = 0.06 (basteria_mediapipe.py, line 348). -/
def touch_threshold : ℚ := 6/100

/-- Per-frame data of a detected right hand: the palm centroid (mean of the
21 landmark x and y coordinates) and the thumb-index pinch distance. -/
structure RightHandData where
  x : ℚ
  y : ℚ
  pinch_distance : ℚ
deriving DecidableEq

/-- Per-frame data of a detected left hand: palm centroid, pinch distance,
wrist position, and the np.random draws consumed if the PCR spawn fires. -/
structure LeftHandData where
  x : ℚ
  y : ℚ
  pinch_distance : ℚ
  wrist : ℚ × ℚ
  rand0 : RandFragment
  rand1 : RandFragment
deriving DecidableEq

/-- One frame of detection results: which hands are present, the inter-hand
touch distance (distance between the right index tip and the left wrist,
meaningful when both hands are present), and the frame timestamp. -/
structure HandsData where
  left : Option LeftHandData
  right : Option RightHandData
  touch_distance : ℚ
  time : ℚ
deriving DecidableEq

/-- One tick of input to process_hand_tracking: either no detected hands
(which also covers a failed camera read - both leave the control state
untouched apart from left_hand_present_this_frame), or detection results. -/
inductive FrameInput where
  | noHands
  | hands (h : HandsData)
deriving DecidableEq

/-- cycle_state (basteria_mediapipe.py, lines 600-621): advance the mode
cyclically, set the cooldown to 45 frames, reset the enzyme attachment state
and tilt the camera to rotation_x = 30. -/
def cycle_state (s : ViewerState) : ViewerState :=
  { s with
    current_state_index := s.current_state_index + 1
    gesture_cooldown := 45
    enzyme := { enzyme_position := (0, 5, 0), is_attached := false, attachment_progress := 0 }
    camera_rotation_x := 30 }

/-- process_right_hand (basteria_mediapipe.py, lines 552-598): while the
cooldown is positive, decrement it and return; otherwise accumulate the
rotation delta from the last tracked position, remember the current position,
and drive the camera distance toward the pinch-controlled target. -/
def process_right_hand (s : ViewerState) (r : RightHandData) : ViewerState :=
  if 0 < s.gesture_cooldown then
    { s with gesture_cooldown := s.gesture_cooldown - 1 }
  else
    let s1 :=
      match s.last_right_hand_pos with
      | some lp =>
        { s with
          camera_rotation_y := s.camera_rotation_y + (r.x - lp.1) * 150
          camera_rotation_x := s.camera_rotation_x + (r.y - lp.2) * 150 }
      | none => s
    let s2 := { s1 with last_right_hand_pos := some (r.x, r.y) }
    let normalized_distance := rightHandNormalizedDistance r.pinch_distance
    let target_distance := 5 + normalized_distance * 20
    let new_distance := smooth_value s2.camera_distance target_distance (4/10)
    { s2 with camera_distance := max 2 (min 50 new_distance) }

/-- np.clip(x, 0, 1). -/
def np_clip01 (x : ℚ) : ℚ := min 1 (max 0 x)

/-- process_left_hand (basteria_mediapipe.py, lines 623-711): in PCR mode push
the wrist sample and run the fragment update with the history velocity; in
BASTERIA mode drive shake / color blend / opacity from the inverted pinch
ramp; in ADN mode drive the strand separation factor; in ENZYME mode drive
the enzyme attachment. -/
def process_left_hand (s : ViewerState) (l : LeftHandData) (now : ℚ) : ViewerState :=
  let s :=
    if s.current_state_index = 3 then
      let hist := pushHistory s.left_hand_history { pos := l.wrist, time := now }
      { s with
        left_hand_history := hist
        pcr := s.pcr.updateCore (velocityGT hist (1/20))
          (if velocityLT hist (1/100) then 10 else 1) l.rand0 l.rand1 }
    else s
  let s :=
    if s.current_state_index = 0 then
      let normalized_factor := bacteriaNormalizedFactor l.pinch_distance
      { s with
        shake_intensity := normalized_factor
        color_blend_factor := normalized_factor
        model_opacity := 1 - normalized_factor * (6/10)
        model_color :=
          ((1 - normalized_factor) * 1 + normalized_factor * 1,
           (1 - normalized_factor) * 1 + normalized_factor * 0,
           (1 - normalized_factor) * 1 + normalized_factor * 0) }
    else s
  if s.current_state_index = 1 then
    { s with adn_separation_factor := np_clip01 ((l.pinch_distance - 2/100) / (15/100)) }
  else if s.current_state_index = 2 then
    let normalized := np_clip01 ((l.pinch_distance - 2/100) / (12/100 - 2/100))
    { s with enzyme := attach_enzyme s.enzyme (1 - normalized) }
  else s

/-- np.interp(x, [lo, hi], [0, 1]): clamped linear interpolation. -/
def np_interp01 (x lo hi : ℚ) : ℚ :=
  if x ≤ lo then 0 else if hi ≤ x then 1 else (x - lo) / (hi - lo)

/-- The touch-gesture check at the top of process_hand_tracking
(basteria_mediapipe.py, lines 497-506): when the cooldown is idle, both hands
are present and the cross-hand touch distance is under the threshold, the
mode cycles. -/
def gesture_check (s : ViewerState) (h : HandsData) : ViewerState :=
  if s.gesture_cooldown = 0 ∧ h.left.isSome ∧ h.right.isSome ∧
      h.touch_distance < touch_threshold then
    cycle_state s
  else s

/-- The ADN inter-hand separation block of process_hand_tracking
(basteria_mediapipe.py, lines 509-522): in ADN mode the horizontal distance
between the two palm centroids is mapped through np.interp over [0.25, 0.8]
(0 when either hand is missing) and drives the helicase z position. -/
def adn_separation_block (s : ViewerState) (h : HandsData) : ViewerState :=
  if s.current_state_index = 1 then
    let sep :=
      match h.left, h.right with
      | some l, some r => np_interp01 |r.x - l.x| (25/100) (8/10)
      | _, _ => 0
    let s := { s with hand_separation := sep }
    { s with helicase_z := -8 + 18 * s.hand_separation }
  else s

/-- process_hand_tracking (basteria_mediapipe.py, lines 461-543), one frame:
clear the left-present flag; with no detections nothing else changes; with
detections, fire the touch gesture when the cooldown is idle and both hands
touch, run the ADN inter-hand separation block, then the right-hand and
left-hand controllers. -/
def process_hand_tracking (s : ViewerState) (inp : FrameInput) : ViewerState :=
  let s := { s with left_hand_present_this_frame := false }
  match inp with
  | .noHands => s
  | .hands h =>
    let s := if h.left.isSome then { s with left_hand_present_this_frame := true } else s
    let s := gesture_check s h
    let s := adn_separation_block s h
    let s :=
      match h.right with
      | some r => process_right_hand s r
      | none => s
    match h.left with
    | some l => process_left_hand s l h.time
    | none => s

/-- The mouse-wheel zoom of the main loop (basteria_mediapipe.py, line 894). -/
def mouseWheelZoom (camera_distance : ℚ) (wheel_y : ℤ) : ℚ :=
  max 2 (min 50 (camera_distance - wheel_y))

/-- The camera distance restored by the R key (basteria_mediapipe.py,
line 883). -/
def resetCameraDistance : ℚ := 15

/-- Iterated frame ticks: run n frames from s with the input stream ins. -/
def runTicks (s : ViewerState) (ins : ℕ → FrameInput) : ℕ → ViewerState
  | 0 => s
  | n + 1 => process_hand_tracking (runTicks s ins n) (ins n)

/-- The number of mode transitions observed during the first n frames. -/
def countTransitions (s : ViewerState) (ins : ℕ → FrameInput) : ℕ → ℕ
  | 0 => 0
  | n + 1 =>
    countTransitions s ins n +
      (if (runTicks s ins (n + 1)).current_state_index = (runTicks s ins n).current_state_index
       then 0 else 1)

/-- A frame on which both hands are detected with the cross-hand touch
distance below touch_threshold. -/
def Touching (inp : FrameInput) : Prop :=
  match inp with
  | .noHands => False
  | .hands h => h.left.isSome ∧ h.right.isSome ∧ h.touch_distance < touch_threshold

/-! ### BasteriaViewerMediaPipe of basteria_viewer_mediapipe.py
(the earlier single-model viewer; its process_hand_tracking, lines 200-266,
is the one place in the repository that resets the last-position trackers) -/

/-- Control state of the basteria_viewer_mediapipe.py viewer (its __init__). -/
structure VmState where
  camera_distance : ℚ
  camera_rotation_x : ℚ
  camera_rotation_y : ℚ
  model_opacity : ℚ
  is_red_mode : Bool
  model_color : ℚ × ℚ × ℚ
  last_right_hand_pos : Option (ℚ × ℚ)
  last_left_hand_pos : Option (ℚ × ℚ)
  hand_control_enabled : Bool
deriving DecidableEq

/-- The state right after the basteria_viewer_mediapipe.py __init__. -/
def vmInitialState : VmState :=
  { camera_distance := 15
    camera_rotation_x := 0
    camera_rotation_y := 0
    model_opacity := 1
    is_red_mode := false
    model_color := (1, 1, 1)
    last_right_hand_pos := none
    last_left_hand_pos := none
    hand_control_enabled := true }

/-- One detected hand in that viewer: the palm position (landmark 9) and the
2D thumb-index pinch distance. -/
structure VmHand where
  palm : ℚ × ℚ
  pinch_distance : ℚ
deriving DecidableEq

/-- One frame of input to that viewer: a failed camera read, or detection
results with at most one hand per side (none / none means no detections,
which is the branch that resets the last-position trackers). -/
inductive VmFrame where
  | captureFail
  | detected (left right : Option VmHand)
deriving DecidableEq

/-- process_right_hand of basteria_viewer_mediapipe.py (lines 268-303):
rotation delta from the last tracked position, pinch zoom toward
25 - 20 * normalized over [0.02, 0.15] smoothed with weight 0.1 and clamped
to [2, 50], then remember the current position. -/
def vmProcessRightHand (s : VmState) (h : VmHand) : VmState :=
  let s :=
    match s.last_right_hand_pos with
    | some lp =>
      { s with
        camera_rotation_y := s.camera_rotation_y + (h.palm.1 - lp.1) * 150
        camera_rotation_x := s.camera_rotation_x + (h.palm.2 - lp.2) * 150 }
    | none => s
  let normalized_distance := max 0 (min 1 ((h.pinch_distance - 2/100) / (15/100 - 2/100)))
  let target_distance := 25 - normalized_distance * 20
  let new_distance := smooth_value s.camera_distance target_distance (1/10)
  { s with
    camera_distance := max 2 (min 50 new_distance)
    last_right_hand_pos := some h.palm }

/-- process_left_hand of basteria_viewer_mediapipe.py (lines 305-350):
pinch-controlled red / white color mode, opacity driven by sideways palm
movement relative to the last tracked position, then remember the current
position. -/
def vmProcessLeftHand (s : VmState) (h : VmHand) : VmState :=
  let s :=
    if h.pinch_distance < 5/100 then
      { s with is_red_mode := true, model_color := (1, 0, 0) }
    else
      { s with is_red_mode := false, model_color := (1, 1, 1) }
  let s :=
    match s.last_left_hand_pos with
    | some lp =>
      let dx := |h.palm.1 - lp.1|
      let s :=
        if 2/100 < dx then
          { s with model_opacity := max (1/10) (min 1 (s.model_opacity - dx * 3)) }
        else s
      if dx < 1/100 then
        { s with model_opacity := min 1 (s.model_opacity + 2/100) }
      else s
    | none => s
  { s with last_left_hand_pos := some h.palm }

/-- process_hand_tracking of basteria_viewer_mediapipe.py (lines 200-266):
nothing happens when hand control is disabled or the camera read fails; with
zero detections both last-position trackers reset to none (lines 242-244);
otherwise each detected hand is dispatched to its controller. -/
def vmTick (s : VmState) (f : VmFrame) : VmState :=
  if s.hand_control_enabled = false then s
  else
    match f with
    | .captureFail => s
    | .detected left right =>
      if left = none ∧ right = none then
        { s with last_right_hand_pos := none, last_left_hand_pos := none }
      else
        let s :=
          match right with
          | some h => vmProcessRightHand s h
          | none => s
        match left with
        | some h => vmProcessLeftHand s h
        | none => s

/-! ## Theorems -/

/-- Helper: the population cap is preserved by one PCRModel.update. -/
lemma pcr_update_length_le (m : PCRModel) (v : ℚ) (r0 r1 : RandFragment)
    (hcap : m.fragments.length ≤ max_fragments) :
    ((m.update v r0 r1).fragments.length ≤ max_fragments) := by
  unfold PCRModel.update PCRModel.updateCore spawnStep
  dsimp only
  rw [List.length_map]
  refine le_trans (List.length_filter_le _ _) ?_
  split_ifs with hc h1 h2 <;> simp_all <;> omega

/-- C4: pinch-normalization saturation and shape.  The Bacteria inverted ramp
(min 0.015, max 0.1) saturates at 1 below min and at 0 above max, and is
antitone and continuous; the right-hand direct normalization (min 0.02,
max 0.2) saturates at 0 below min and at 1 above max, and is monotone and
continuous. -/
theorem pinch_normalization_saturation_and_shape :
    (∀ d : ℚ, d ≤ 15/1000 → bacteriaNormalizedFactor d = 1) ∧
    (∀ d : ℚ, 1/10 ≤ d → bacteriaNormalizedFactor d = 0) ∧
    Antitone bacteriaNormalizedFactor ∧
    Continuous bacteriaNormalizedFactor ∧
    (∀ d : ℚ, d ≤ 2/100 → rightHandNormalizedDistance d = 0) ∧
    (∀ d : ℚ, 20/100 ≤ d → rightHandNormalizedDistance d = 1) ∧
    Monotone rightHandNormalizedDistance ∧
    Continuous rightHandNormalizedDistance := by
  refine ⟨?_, ?_, bacteriaNormalizedFactor_antitone, bacteriaNormalizedFactor_continuous,
    ?_, ?_, rightHandNormalizedDistance_monotone, rightHandNormalizedDistance_continuous⟩
  · intro d hd
    rw [bacteriaNormalizedFactor_eq_clamp]
    have hr : (d - 15/1000) / (1/10 - 15/1000) ≤ 0 := by
      apply div_nonpos_of_nonpos_of_nonneg <;> linarith
    rw [min_eq_left (by linarith), max_eq_right (by norm_num)]
  · intro d hd
    rw [bacteriaNormalizedFactor_eq_clamp]
    have hr : (1 : ℚ) ≤ (d - 15/1000) / (1/10 - 15/1000) := by
      rw [le_div_iff₀ (by norm_num)]; linarith
    rw [min_eq_right (by linarith), max_eq_left (by linarith)]
  · intro d hd
    unfold rightHandNormalizedDistance
    dsimp only
    have hr : (d - 2/100) / (20/100 - 2/100) ≤ 0 := by
      apply div_nonpos_of_nonpos_of_nonneg <;> linarith
    rw [min_eq_right (by linarith), max_eq_left (by linarith)]
  · intro d hd
    unfold rightHandNormalizedDistance
    dsimp only
    have hr : (1 : ℚ) ≤ (d - 2/100) / (20/100 - 2/100) := by
      rw [le_div_iff₀ (by norm_num)]; linarith
    rw [min_eq_left hr, max_eq_right (by norm_num)]

/-- C4 witness: the saturation facts evaluated at concrete pinch distances. -/
theorem pinch_normalization_saturation_and_shape_witness :
    bacteriaNormalizedFactor (1/100) = 1 ∧ bacteriaNormalizedFactor (1/5) = 0 ∧
    rightHandNormalizedDistance (1/100) = 0 ∧ rightHandNormalizedDistance (1/4) = 1 :=
  ⟨pinch_normalization_saturation_and_shape.1 (1/100) (by norm_num),
   pinch_normalization_saturation_and_shape.2.1 (1/5) (by norm_num),
   pinch_normalization_saturation_and_shape.2.2.2.2.1 (1/100) (by norm_num),
   pinch_normalization_saturation_and_shape.2.2.2.2.2.1 (1/4) (by norm_num)⟩

/-- C10: every mode transition, regardless of which mode is entered, resets
the enzyme attachment state (progress 0, detached, position (0,5,0)) and sets
the camera tilt rotation_x to exactly 30, while advancing the mode
cyclically. -/
theorem cycle_state_side_effects (s : ViewerState) :
    (cycle_state s).enzyme.attachment_progress = 0 ∧
    (cycle_state s).enzyme.is_attached = false ∧
    (cycle_state s).enzyme.enzyme_position = (0, 5, 0) ∧
    (cycle_state s).camera_rotation_x = 30 ∧
    (cycle_state s).current_state_index = s.current_state_index + 1 ∧
    (cycle_state s).gesture_cooldown = 45 := by
  simp [cycle_state]

/-- C6: the camera distance starts at 15 and every operation that modifies it
lands in [2, 50]; the pinch path (active only when the cooldown is idle)
first smooths toward 5 + 20 * normalized with weight 0.4 and then clamps. -/
theorem camera_distance_invariant :
    (initialViewerState.camera_distance = 15 ∧
      (2 : ℚ) ≤ initialViewerState.camera_distance ∧
      initialViewerState.camera_distance ≤ 50) ∧
    (∀ (s : ViewerState) (r : RightHandData),
      (0 < s.gesture_cooldown → (process_right_hand s r).camera_distance = s.camera_distance) ∧
      (s.gesture_cooldown = 0 →
        (process_right_hand s r).camera_distance =
          max 2 (min 50 (smooth_value s.camera_distance
            (5 + rightHandNormalizedDistance r.pinch_distance * 20) (4/10))) ∧
        2 ≤ (process_right_hand s r).camera_distance ∧
        (process_right_hand s r).camera_distance ≤ 50)) ∧
    (∀ (cd : ℚ) (y : ℤ), 2 ≤ mouseWheelZoom cd y ∧ mouseWheelZoom cd y ≤ 50) ∧
    ((2 : ℚ) ≤ resetCameraDistance ∧ resetCameraDistance ≤ 50) := by
  refine ⟨⟨rfl, by norm_num [initialViewerState], by norm_num [initialViewerState]⟩, ?_, ?_, ?_⟩
  · intro s r
    constructor
    · intro hpos
      unfold process_right_hand
      rw [if_pos hpos]
    · intro hzero
      have hneg : ¬ 0 < s.gesture_cooldown := by omega
      unfold process_right_hand
      rw [if_neg hneg]
      cases s.last_right_hand_pos <;>
        exact ⟨rfl, le_max_left _ _, max_le (by norm_num) (min_le_left _ _)⟩
  · intro cd y
    exact ⟨le_max_left _ _, max_le (by norm_num) (min_le_left _ _)⟩
  · norm_num [resetCameraDistance]

/-- C6 witness: the pinch path evaluated at a concrete state and pinch
distance stays in range. -/
theorem camera_distance_invariant_witness :
    2 ≤ (process_right_hand initialViewerState
        { x := 1/2, y := 1/2, pinch_distance := 1/10 }).camera_distance ∧
    (process_right_hand initialViewerState
        { x := 1/2, y := 1/2, pinch_distance := 1/10 }).camera_distance ≤ 50 :=
  ⟨((camera_distance_invariant.2.1 initialViewerState
      { x := 1/2, y := 1/2, pinch_distance := 1/10 }).2 rfl).2.1,
   ((camera_distance_invariant.2.1 initialViewerState
      { x := 1/2, y := 1/2, pinch_distance := 1/10 }).2 rfl).2.2⟩

/-- C7 counterexample: the shared normalization utilities are not all guarded.
map_range raises ZeroDivisionError (modelled as none) whenever
from_max = from_min, and smooth_step whenever edge1 = edge0. -/
theorem unguarded_division_counterexample :
    map_range 0 1 1 0 1 = none ∧ smooth_step 1 1 0 = none := by
  constructor <;> norm_num [map_range, smooth_step]

/-- C7 amended: the velocity computation is guarded (total and nonnegative),
and map_range / smooth_step succeed whenever their range is nondegenerate,
but both raise on a degenerate range: their normalization denominator is not
guarded. -/
theorem division_guard_status :
    (∀ value from_min from_max to_min to_max : ℚ, from_max ≠ from_min →
      (map_range value from_min from_max to_min to_max).isSome = true) ∧
    (∀ value from_min to_min to_max : ℚ,
      map_range value from_min from_min to_min to_max = none) ∧
    (∀ edge0 edge1 x : ℚ, edge1 ≠ edge0 →
      (smooth_step edge0 edge1 x).isSome = true) ∧
    (∀ edge0 x : ℚ, smooth_step edge0 edge0 x = none) ∧
    (∀ history : List HandSample, 0 ≤ handVelocity history) := by
  refine ⟨?_, ?_, ?_, ?_, ?_⟩
  · intro value from_min from_max to_min to_max h
    rw [map_range, if_neg (by intro hc; exact h (by linarith))]
    rfl
  · intro value from_min to_min to_max
    rw [map_range, if_pos (by ring)]
  · intro edge0 edge1 x h
    rw [smooth_step, if_neg (by intro hc; exact h (by linarith))]
    rfl
  · intro edge0 x
    rw [smooth_step, if_pos (by ring)]
  · intro history
    unfold handVelocity
    split
    · dsimp only
      split
      · positivity
      · exact le_refl 0
    · exact le_refl 0

/-- C7 witness: a successful guarded call, obtained from the amended
theorem at a nondegenerate range. -/
theorem division_guard_status_witness :
    (map_range 3 0 2 0 10).isSome = true :=
  division_guard_status.1 3 0 2 0 10 (by norm_num)

/-- C5: PCR fragment population.  One update never pushes the population past
the cap of 200, spawns at most 2 fragments (each created with life 180), and
removes every fragment whose life had been driven to 0 or below (every
surviving fragment had positive life before this update's decrement); the cap
holds along every sequence of updates from the empty collection. -/
theorem pcr_fragment_population (m : PCRModel) (v : ℚ) (r0 r1 : RandFragment)
    (hcap : m.fragments.length ≤ max_fragments) :
    (m.update v r0 r1).fragments.length ≤ max_fragments ∧
    (m.update v r0 r1).fragments.length ≤ m.fragments.length + 2 ∧
    (∃ newFrags : List Fragment, newFrags.length ≤ 2 ∧
      (∀ f ∈ newFrags, f.life = fragment_lifespan) ∧
      (m.update v r0 r1).fragments =
        ((m.fragments ++ newFrags).filter (fun f => 0 < f.life)).map
          (fun f => { f with life := f.life - pcrDecayRate v })) ∧
    (∀ g ∈ (m.update v r0 r1).fragments, 0 < g.life + pcrDecayRate v) ∧
    (∀ (vs : ℕ → ℚ) (rs : ℕ → RandFragment × RandFragment) (n : ℕ),
      (iterPCRUpdate vs rs n).fragments.length ≤ max_fragments) := by
  have hchar : ∃ newFrags : List Fragment, newFrags.length ≤ 2 ∧
      (∀ f ∈ newFrags, f.life = fragment_lifespan) ∧
      (m.update v r0 r1).fragments =
        ((m.fragments ++ newFrags).filter (fun f => 0 < f.life)).map
          (fun f => { f with life := f.life - pcrDecayRate v }) := by
    unfold PCRModel.update PCRModel.updateCore
    dsimp only
    by_cases hc : (decide (1/20 < v) = true) ∧ m.fragments.length < max_fragments
    · rw [if_pos hc]
      unfold spawnStep
      rw [if_pos hc.2]
      by_cases h2 : (m.fragments ++ [spawnFragment r0]).length < max_fragments
      · rw [if_pos h2]
        refine ⟨[spawnFragment r0, spawnFragment r1], by norm_num, ?_, ?_⟩
        · intro f hf
          rcases List.mem_pair.mp hf with rfl | rfl <;> rfl
        · simp
      · rw [if_neg h2]
        exact ⟨[spawnFragment r0], by norm_num, by intro f hf; rw [List.mem_singleton.mp hf]; rfl, rfl⟩
    · rw [if_neg hc]
      exact ⟨[], by norm_num, by intro f hf; simp at hf, by simp⟩
  obtain ⟨newFrags, hnlen, hnlife, heq⟩ := hchar
  refine ⟨pcr_update_length_le m v r0 r1 hcap, ?_, ⟨newFrags, hnlen, hnlife, heq⟩, ?_, ?_⟩
  · rw [heq, List.length_map]
    refine le_trans (List.length_filter_le _ _) ?_
    rw [List.length_append]
    omega
  · intro g hg
    rw [heq] at hg
    simp only [List.mem_map, List.mem_filter, decide_eq_true_eq] at hg
    obtain ⟨f, ⟨_, hfpos⟩, rfl⟩ := hg
    dsimp only
    omega
  · intro vs rs n
    induction n with
    | zero => norm_num [iterPCRUpdate, max_fragments]
    | succ k ih => exact pcr_update_length_le _ _ _ _ ih

/-- C5 witness: one update of the empty collection at velocity 0. -/
theorem pcr_fragment_population_witness :
    (PCRModel.update { fragments := [] } 0
        { pos := (0, 0, 0), angle := 0, axis := (0, 0, 1) }
        { pos := (0, 0, 0), angle := 0, axis := (0, 0, 1) }).fragments.length ≤
      max_fragments :=
  (pcr_fragment_population { fragments := [] } 0
    { pos := (0, 0, 0), angle := 0, axis := (0, 0, 1) }
    { pos := (0, 0, 0), angle := 0, axis := (0, 0, 1) } (by norm_num)).1

/-- Helper: the closed form of handVelocity for a history of more than 2
samples whose timestamps advance. -/
lemma handVelocity_formula (history : List HandSample) (s e : HandSample)
    (hs : history.head? = some s) (hle : history.getLast? = some e)
    (h3 : 2 < history.length) (hdt : 0 < e.time - s.time) :
    handVelocity history =
      Real.sqrt (((e.pos.1 - s.pos.1 : ℚ) : ℝ) ^ 2 + ((e.pos.2 - s.pos.2 : ℚ) : ℝ) ^ 2) /
        ((e.time - s.time : ℚ) : ℝ) := by
  have hne : history ≠ [] := by
    intro hnil
    rw [hnil] at h3
    simp at h3
  have hshead : history.head hne = s := by
    rw [List.head?_eq_head hne] at hs
    exact Option.some_injective _ hs
  have helast : history.getLast hne = e := by
    rw [List.getLast?_eq_getLast history hne] at hle
    exact Option.some_injective _ hle
  unfold handVelocity
  rw [dif_pos h3]
  show (if 0 < (history.getLast hne).time - (history.head hne).time then _ else _) = _
  rw [hshead, helast, if_pos hdt]

/-- C8: with more than 2 buffered samples the velocity is the distance between
the oldest and newest samples divided by their time difference; with 2 or
fewer samples it is 0; in particular the 2-sample buffer (0,0)@0, (3,4)@1
yields 0, and any longer buffer spanning a positional delta (6,8) over 2
seconds yields exactly 5. -/
theorem history_buffer_velocity :
    (∀ history : List HandSample, history.length ≤ 2 → handVelocity history = 0) ∧
    handVelocity [{ pos := (0, 0), time := 0 }, { pos := (3, 4), time := 1 }] = 0 ∧
    (∀ (history : List HandSample) (s e : HandSample), history.head? = some s →
      history.getLast? = some e → 2 < history.length → 0 < e.time - s.time →
      handVelocity history =
        Real.sqrt (((e.pos.1 - s.pos.1 : ℚ) : ℝ) ^ 2 + ((e.pos.2 - s.pos.2 : ℚ) : ℝ) ^ 2) /
          ((e.time - s.time : ℚ) : ℝ)) ∧
    (∀ (history : List HandSample) (s e : HandSample), history.head? = some s →
      history.getLast? = some e → 2 < history.length →
      e.pos.1 - s.pos.1 = 6 → e.pos.2 - s.pos.2 = 8 → e.time - s.time = 2 →
      handVelocity history = 5) := by
  refine ⟨?_, ?_, handVelocity_formula, ?_⟩
  · intro history hlen
    unfold handVelocity
    rw [dif_neg (by omega)]
  · unfold handVelocity
    rw [dif_neg (by norm_num)]
  · intro history s e hs hle h3 hdx hdy hdt
    rw [handVelocity_formula history s e hs hle h3 (by rw [hdt]; norm_num)]
    rw [hdx, hdy, hdt]
    push_cast
    norm_num
    rw [show (100 : ℝ) = 10 ^ 2 by norm_num, Real.sqrt_sq (by norm_num : (0:ℝ) ≤ 10)]
    norm_num

/-- C8 witness: a concrete 3-sample history spanning delta (6,8) over 2
seconds. -/
theorem history_buffer_velocity_witness :
    handVelocity [{ pos := (0, 0), time := 0 }, { pos := (2, 3), time := 1 },
      { pos := (6, 8), time := 2 }] = 5 :=
  history_buffer_velocity.2.2.2 _ { pos := (0, 0), time := 0 } { pos := (6, 8), time := 2 }
    rfl rfl (by norm_num) (by norm_num) (by norm_num) (by norm_num)

/-- Helper: a single smoothing step from below the target stays between the
current value and the target. -/
lemma smooth_value_between (c T a : ℚ) (h0 : 0 ≤ a) (h1 : a ≤ 1) (hct : c ≤ T) :
    c ≤ smooth_value c T a ∧ smooth_value c T a ≤ T := by
  unfold smooth_value
  constructor <;> nlinarith

/-- Helper: every iterate from below the target stays below the target. -/
lemma iterateSmooth_le_target (T a c : ℚ) (h0 : 0 ≤ a) (h1 : a ≤ 1) (hct : c ≤ T) :
    ∀ n, iterateSmooth T a c n ≤ T := by
  intro n
  induction n with
  | zero => exact hct
  | succ k ih => exact (smooth_value_between _ _ _ h0 h1 ih).2

/-- Helper: one step of the iteration contracts the distance to the target by
the factor 1 - a. -/
lemma smooth_value_error (x T a : ℚ) (ha : a ≤ 1) :
    |T - smooth_value x T a| = (1 - a) * |T - x| := by
  have h : T - smooth_value x T a = (1 - a) * (T - x) := by
    unfold smooth_value
    ring
  rw [h, abs_mul, abs_of_nonneg (by linarith : (0:ℚ) ≤ 1 - a)]

/-- Helper: closed form of the iterated smoothing error. -/
lemma iterateSmooth_error (T a c : ℚ) (ha : a ≤ 1) :
    ∀ n, |T - iterateSmooth T a c n| = (1 - a) ^ n * |T - c| := by
  intro n
  induction n with
  | zero => simp [iterateSmooth]
  | succ k ih =>
    show |T - smooth_value (iterateSmooth T a c k) T a| = _
    rw [smooth_value_error _ _ _ ha, ih, pow_succ]
    ring

/-- C9: exp_smooth contraction.  A single application with weight 0 < a < 1
never overshoots the target (the result stays between the current value and
the target), the iterates with a fixed target approach it monotonically
(nondecreasing from below, nonincreasing from above), each step contracts
the error by the factor 1 - a, and the error eventually falls below every
positive bound. -/
theorem exp_smooth_contraction (current target a : ℚ) (h0 : 0 < a) (h1 : a < 1) :
    (current ≤ target →
      current ≤ smooth_value current target a ∧ smooth_value current target a ≤ target) ∧
    (target ≤ current →
      target ≤ smooth_value current target a ∧ smooth_value current target a ≤ current) ∧
    (current ≤ target → Monotone (iterateSmooth target a current)) ∧
    (target ≤ current → Antitone (iterateSmooth target a current)) ∧
    (∀ n, |target - iterateSmooth target a current (n + 1)| =
      (1 - a) * |target - iterateSmooth target a current n|) ∧
    (∀ ε : ℚ, 0 < ε → ∃ N, ∀ n, N ≤ n → |target - iterateSmooth target a current n| < ε) := by
  have ha0 : (0:ℚ) ≤ a := le_of_lt h0
  have ha1 : a ≤ 1 := le_of_lt h1
  refine ⟨smooth_value_between current target a ha0 ha1, ?_, ?_, ?_, ?_, ?_⟩
  · intro htc
    unfold smooth_value
    constructor <;> nlinarith
  · intro hct
    apply monotone_nat_of_le_succ
    intro n
    exact (smooth_value_between _ _ _ ha0 ha1
      (iterateSmooth_le_target target a current ha0 ha1 hct n)).1
  · intro htc
    apply antitone_nat_of_succ_le
    intro n
    have hge : target ≤ iterateSmooth target a current n := by
      induction n with
      | zero => exact htc
      | succ k ih =>
        show target ≤ smooth_value (iterateSmooth target a current k) target a
        unfold smooth_value
        nlinarith
    show smooth_value (iterateSmooth target a current n) target a ≤ _
    unfold smooth_value
    nlinarith
  · intro n
    exact smooth_value_error _ _ _ ha1
  · intro ε hε
    have hD0 : (0:ℚ) ≤ |target - current| := abs_nonneg _
    obtain ⟨N, hN⟩ := exists_pow_lt_of_lt_one
      (div_pos hε (by linarith : (0:ℚ) < |target - current| + 1))
      (by linarith : 1 - a < 1)
    refine ⟨N, fun n hn => ?_⟩
    rw [iterateSmooth_error target a current ha1 n]
    calc (1 - a) ^ n * |target - current|
        ≤ (1 - a) ^ N * (|target - current| + 1) := by
          apply mul_le_mul (pow_le_pow_of_le_one (by linarith) (by linarith) hn)
            (by linarith) hD0 (pow_nonneg (by linarith) N)
      _ < (ε / (|target - current| + 1)) * (|target - current| + 1) := by
          apply mul_lt_mul_of_pos_right hN (by linarith)
      _ = ε := div_mul_cancel₀ ε (by linarith)

/-- C9 witness: one smoothing step from 0 toward 1 with weight 1/2 stays in
the interval between them. -/
theorem exp_smooth_contraction_witness :
    (0:ℚ) ≤ smooth_value 0 1 (1/2) ∧ smooth_value 0 1 (1/2) ≤ 1 :=
  (exp_smooth_contraction 0 1 (1/2) (by norm_num) (by norm_num)).1 (by norm_num)

/-- Helper: the left-hand controller never touches the mode index. -/
lemma process_left_hand_mode (s : ViewerState) (l : LeftHandData) (now : ℚ) :
    (process_left_hand s l now).current_state_index = s.current_state_index := by
  unfold process_left_hand
  dsimp only
  split_ifs <;> rfl

/-- Helper: the left-hand controller never touches the cooldown. -/
lemma process_left_hand_cooldown (s : ViewerState) (l : LeftHandData) (now : ℚ) :
    (process_left_hand s l now).gesture_cooldown = s.gesture_cooldown := by
  unfold process_left_hand
  dsimp only
  split_ifs <;> rfl

/-- Helper: the left-hand controller never touches the right-hand tracker. -/
lemma process_left_hand_lastright (s : ViewerState) (l : LeftHandData) (now : ℚ) :
    (process_left_hand s l now).last_right_hand_pos = s.last_right_hand_pos := by
  unfold process_left_hand
  dsimp only
  split_ifs <;> rfl

/-- Helper: the right-hand controller never touches the mode index. -/
lemma process_right_hand_mode (s : ViewerState) (r : RightHandData) :
    (process_right_hand s r).current_state_index = s.current_state_index := by
  unfold process_right_hand
  split_ifs with h
  · rfl
  · cases s.last_right_hand_pos <;> rfl

/-- Helper: the right-hand controller decrements a positive cooldown by one
and leaves an idle cooldown at zero. -/
lemma process_right_hand_cooldown (s : ViewerState) (r : RightHandData) :
    (process_right_hand s r).gesture_cooldown = s.gesture_cooldown - 1 := by
  unfold process_right_hand
  split_ifs with h
  · rfl
  · cases s.last_right_hand_pos <;> (show s.gesture_cooldown = s.gesture_cooldown - 1; omega)

/-- Helper: the ADN block never touches the mode index. -/
lemma adn_separation_block_mode (s : ViewerState) (h : HandsData) :
    (adn_separation_block s h).current_state_index = s.current_state_index := by
  unfold adn_separation_block
  split_ifs <;> rfl

/-- Helper: the ADN block never touches the cooldown. -/
lemma adn_separation_block_cooldown (s : ViewerState) (h : HandsData) :
    (adn_separation_block s h).gesture_cooldown = s.gesture_cooldown := by
  unfold adn_separation_block
  split_ifs <;> rfl

/-- Helper: the ADN block never touches the right-hand tracker. -/
lemma adn_separation_block_lastright (s : ViewerState) (h : HandsData) :
    (adn_separation_block s h).last_right_hand_pos = s.last_right_hand_pos := by
  unfold adn_separation_block
  split_ifs <;> rfl

/-- Helper: the gesture check never touches the right-hand tracker. -/
lemma gesture_check_lastright (s : ViewerState) (h : HandsData) :
    (gesture_check s h).last_right_hand_pos = s.last_right_hand_pos := by
  unfold gesture_check cycle_state
  split_ifs <;> rfl

/-- Helper: the mode index after one frame with detected hands. -/
lemma tick_hands_mode (s : ViewerState) (hd : HandsData) :
    (process_hand_tracking s (.hands hd)).current_state_index =
      (if s.gesture_cooldown = 0 ∧ hd.left.isSome ∧ hd.right.isSome ∧
          hd.touch_distance < touch_threshold
       then s.current_state_index + 1 else s.current_state_index) := by
  unfold process_hand_tracking
  dsimp only
  rcases hleq : hd.left with _ | l <;> rcases hreq : hd.right with _ | r <;>
    simp only [hleq, hreq, Option.isSome_some, Option.isSome_none, process_left_hand_mode,
      process_right_hand_mode, adn_separation_block_mode] <;>
    unfold gesture_check cycle_state <;>
    split_ifs <;> simp_all

/-- Helper: the cooldown after one frame with detected hands. -/
lemma tick_hands_cooldown (s : ViewerState) (hd : HandsData) :
    (process_hand_tracking s (.hands hd)).gesture_cooldown =
      (let c := if s.gesture_cooldown = 0 ∧ hd.left.isSome ∧ hd.right.isSome ∧
          hd.touch_distance < touch_threshold then 45 else s.gesture_cooldown
       if hd.right.isSome then c - 1 else c) := by
  unfold process_hand_tracking
  dsimp only
  rcases hleq : hd.left with _ | l <;> rcases hreq : hd.right with _ | r <;>
    simp only [hleq, hreq, Option.isSome_some, Option.isSome_none, process_left_hand_cooldown,
      process_right_hand_cooldown, adn_separation_block_cooldown] <;>
    unfold gesture_check cycle_state <;>
    split_ifs <;> simp_all

/-- Helper: a frame with no detections only clears the left-present flag. -/
lemma tick_noHands (s : ViewerState) :
    process_hand_tracking s .noHands = { s with left_hand_present_this_frame := false } := rfl

/-- Helper: the mode / cooldown trajectory under a continuously held touch
gesture, starting from an idle cooldown: the gesture fires on frame 1 and
again on frame 46; the cooldown, set to 45 by a firing and decremented once
per frame starting with the firing frame itself, is back to 0 at the end of
frame 45. -/
def gestureTimeline (m : Fin 4) (i : ℕ) : Fin 4 × ℕ :=
  if i = 0 then (m, 0)
  else if i ≤ 45 then (m + 1, 45 - i)
  else (m + 1 + 1, 90 - i)

/-- Helper: one held-touch step of the mode / cooldown pair advances the
timeline. -/
lemma timeline_step (m : Fin 4) (k : ℕ) (hk : k < 90) :
    (if (gestureTimeline m k).2 = 0
     then ((gestureTimeline m k).1 + 1, (44 : ℕ))
     else ((gestureTimeline m k).1, (gestureTimeline m k).2 - 1)) =
      gestureTimeline m (k + 1) := by
  unfold gestureTimeline
  split_ifs <;> dsimp only at * <;>
    first
      | (exfalso; omega)
      | (rw [Prod.mk.injEq]; exact ⟨rfl, by omega⟩)

/-- Helper: under a touch held on every one of the first 90 frames, the run
follows gestureTimeline. -/
lemma run_timeline (s : ViewerState) (ins : ℕ → FrameInput)
    (h0 : s.gesture_cooldown = 0) (hins : ∀ i < 90, Touching (ins i)) :
    ∀ i, i ≤ 90 →
      ((runTicks s ins i).current_state_index, (runTicks s ins i).gesture_cooldown) =
        gestureTimeline s.current_state_index i := by
  intro i
  induction i with
  | zero =>
    intro _
    simp [runTicks, gestureTimeline, h0]
  | succ k ih =>
    intro hk
    have hK := ih (by omega)
    have hmode := congrArg Prod.fst hK
    have hcd := congrArg Prod.snd hK
    dsimp only at hmode hcd
    have ht := hins k (by omega)
    rcases hins_k : ins k with _ | hd
    · rw [hins_k] at ht
      exact absurd ht (by simp [Touching])
    · rw [hins_k] at ht
      obtain ⟨hl, hr, htd⟩ := by simpa [Touching] using ht
      have hstep := timeline_step s.current_state_index k (by omega)
      rw [show runTicks s ins (k + 1) =
        process_hand_tracking (runTicks s ins k) (ins k) from rfl, hins_k]
      rw [Prod.mk.injEq, tick_hands_mode, tick_hands_cooldown]
      dsimp only
      by_cases hc : (runTicks s ins k).gesture_cooldown = 0
      · have hcond : (runTicks s ins k).gesture_cooldown = 0 ∧ hd.left.isSome ∧
            hd.right.isSome ∧ hd.touch_distance < touch_threshold := ⟨hc, hl, hr, htd⟩
        simp only [if_pos hcond, if_pos hr]
        rw [← hstep, if_pos (show (gestureTimeline s.current_state_index k).2 = 0 from by
          rw [← hcd]; exact hc)]
        dsimp only
        exact ⟨by rw [hmode], by norm_num⟩
      · have hcond : ¬((runTicks s ins k).gesture_cooldown = 0 ∧ hd.left.isSome ∧
            hd.right.isSome ∧ hd.touch_distance < touch_threshold) := fun hco => hc hco.1
        simp only [if_neg hcond, if_pos hr]
        rw [← hstep, if_neg (show ¬(gestureTimeline s.current_state_index k).2 = 0 from by
          rw [← hcd]; exact hc)]
        dsimp only
        exact ⟨hmode, by rw [hcd]⟩

/-- Helper: the transition count under a held touch is 1 on frames 1..45 and
2 on frames 46..90. -/
lemma countTransitions_touching (s : ViewerState) (ins : ℕ → FrameInput)
    (h0 : s.gesture_cooldown = 0) (hins : ∀ i < 90, Touching (ins i)) :
    ∀ n, n ≤ 90 →
      countTransitions s ins n = if n = 0 then 0 else if n ≤ 45 then 1 else 2 := by
  have hKm : ∀ j, j ≤ 90 →
      (runTicks s ins j).current_state_index = (gestureTimeline s.current_state_index j).1 :=
    fun j hj => congrArg Prod.fst (run_timeline s ins h0 hins j hj)
  intro n
  induction n with
  | zero => intro _; rfl
  | succ k ih =>
    intro hk
    rw [show countTransitions s ins (k + 1) = countTransitions s ins k +
      (if (runTicks s ins (k + 1)).current_state_index =
          (runTicks s ins k).current_state_index then 0 else 1) from rfl]
    rw [ih (by omega), hKm (k + 1) (by omega), hKm k (by omega)]
    unfold gestureTimeline
    split_ifs <;> dsimp only at * <;> omega

/-- C1 amended: starting from any state with cooldown 0, if both hands are
present with touch distance below the threshold on every one of 90
consecutive frames, then exactly TWO mode transitions occur over those 90
frames (the cooldown is decremented on the firing frame itself, so a second
transition fires on frame 46); exactly one transition occurs over the first
45 frames and the cooldown is back to exactly 0 at the end of frame 45, 45
frames after the transition. -/
theorem touch_held_90_frames (s : ViewerState) (ins : ℕ → FrameInput)
    (h0 : s.gesture_cooldown = 0) (hins : ∀ i < 90, Touching (ins i)) :
    countTransitions s ins 90 = 2 ∧
    countTransitions s ins 45 = 1 ∧
    (runTicks s ins 45).gesture_cooldown = 0 ∧
    (runTicks s ins 1).current_state_index = s.current_state_index + 1 ∧
    (runTicks s ins 46).current_state_index = s.current_state_index + 1 + 1 := by
  refine ⟨?_, ?_, ?_, ?_, ?_⟩
  · rw [countTransitions_touching s ins h0 hins 90 (by omega)]
    norm_num
  · rw [countTransitions_touching s ins h0 hins 45 (by omega)]
    norm_num
  · have h := congrArg Prod.snd (run_timeline s ins h0 hins 45 (by omega))
    dsimp only at h
    rw [h]
    norm_num [gestureTimeline]
  · have h := congrArg Prod.fst (run_timeline s ins h0 hins 1 (by omega))
    dsimp only at h
    rw [h]
    norm_num [gestureTimeline]
  · have h := congrArg Prod.fst (run_timeline s ins h0 hins 46 (by omega))
    dsimp only at h
    rw [h]
    norm_num [gestureTimeline]

/-- A concrete random draw used by the concrete test frames. -/
def touchRand : RandFragment :=
  { pos := (0, 0, 0), angle := 0, axis := (0, 0, 1) }

/-- A concrete detected left hand used by the concrete test frames. -/
def touchLeftHand : LeftHandData :=
  { x := 3/10, y := 1/2, pinch_distance := 5/100, wrist := (3/10, 1/2),
    rand0 := touchRand, rand1 := touchRand }

/-- A concrete frame on which both hands are detected and touching. -/
def touchHandsData : HandsData :=
  { left := some touchLeftHand,
    right := some { x := 35/100, y := 1/2, pinch_distance := 5/100 },
    touch_distance := 5/100,
    time := 0 }

/-- C1 counterexample: with the touch held on 90 consecutive frames from the
freshly initialized state, two mode transitions occur - not exactly one as
claimed (the second fires on frame 46 once the cooldown has counted down). -/
theorem touch_debounce_counterexample :
    countTransitions initialViewerState (fun _ => FrameInput.hands touchHandsData) 90 = 2 ∧
    countTransitions initialViewerState (fun _ => FrameInput.hands touchHandsData) 90 ≠ 1 := by
  have h2 := countTransitions_touching initialViewerState (fun _ => .hands touchHandsData)
    rfl (fun i _ => by constructor <;> norm_num [touchHandsData, touch_threshold]) 90 (by omega)
  norm_num at h2
  exact ⟨h2, by omega⟩

/-- C1 witness: the amended theorem applied to the initial state under the
constant held-touch input. -/
theorem touch_held_90_frames_witness :
    countTransitions initialViewerState (fun _ => FrameInput.hands touchHandsData) 45 = 1 ∧
    (runTicks initialViewerState (fun _ => FrameInput.hands touchHandsData) 45).gesture_cooldown
      = 0 :=
  ⟨(touch_held_90_frames initialViewerState (fun _ => .hands touchHandsData) rfl
      (fun i _ => by constructor <;> norm_num [touchHandsData, touch_threshold])).2.1,
   (touch_held_90_frames initialViewerState (fun _ => .hands touchHandsData) rfl
      (fun i _ => by constructor <;> norm_num [touchHandsData, touch_threshold])).2.2.1⟩

/-- A concrete frame on which only the left hand is detected. -/
def leftOnlyHandsData : HandsData :=
  { left := some touchLeftHand,
    right := none,
    touch_distance := 1,
    time := 0 }

/-- C2 counterexample: on a tick whose frame has no right hand, a positive
cooldown is NOT decremented - the decrement lives inside the right-hand
controller, so it only happens on ticks with a detected right hand. -/
theorem cooldown_skip_counterexample :
    (process_hand_tracking { initialViewerState with gesture_cooldown := 5 }
        (FrameInput.hands leftOnlyHandsData)).gesture_cooldown = 5 ∧
    (process_hand_tracking { initialViewerState with gesture_cooldown := 5 }
        (FrameInput.hands leftOnlyHandsData)).gesture_cooldown ≠ 4 := by
  rw [tick_hands_cooldown]
  norm_num [leftOnlyHandsData]

/-- C2 amended: the cooldown decrement is tied to the right hand.  On a tick
with a detected right hand a positive cooldown drops by exactly 1 and no
transition occurs; on a tick without a right hand (or with no detections at
all) the cooldown is unchanged; and a mode transition can only ever happen on
a tick whose frame has both hands touching while the cooldown is exactly 0 -
so a touch during cooldown is lost, never queued. -/
theorem cooldown_tick_semantics :
    (∀ (s : ViewerState) (hd : HandsData), hd.right.isSome → 0 < s.gesture_cooldown →
      (process_hand_tracking s (.hands hd)).gesture_cooldown = s.gesture_cooldown - 1 ∧
      (process_hand_tracking s (.hands hd)).current_state_index = s.current_state_index) ∧
    (∀ (s : ViewerState) (hd : HandsData), hd.right = none →
      (process_hand_tracking s (.hands hd)).gesture_cooldown = s.gesture_cooldown) ∧
    (∀ s : ViewerState,
      (process_hand_tracking s .noHands).gesture_cooldown = s.gesture_cooldown) ∧
    (∀ (s : ViewerState) (inp : FrameInput),
      (process_hand_tracking s inp).current_state_index ≠ s.current_state_index →
      ∃ hd, inp = FrameInput.hands hd ∧ s.gesture_cooldown = 0 ∧
        hd.left.isSome ∧ hd.right.isSome ∧ hd.touch_distance < touch_threshold) := by
  refine ⟨?_, ?_, fun s => rfl, ?_⟩
  · intro s hd hr hpos
    have hcond : ¬(s.gesture_cooldown = 0 ∧ hd.left.isSome ∧ hd.right.isSome ∧
        hd.touch_distance < touch_threshold) := fun hco => by omega
    rw [tick_hands_cooldown, tick_hands_mode]
    dsimp only
    rw [if_neg hcond, if_neg hcond, if_pos hr]
    exact ⟨rfl, rfl⟩
  · intro s hd hr
    rw [tick_hands_cooldown]
    dsimp only
    rw [hr]
    have hcond : ¬(s.gesture_cooldown = 0 ∧ hd.left.isSome ∧ (none : Option RightHandData).isSome ∧
        hd.touch_distance < touch_threshold) := by simp
    rw [if_neg hcond]
    simp
  · intro s inp hchanged
    rcases inp with _ | hd
    · exact absurd rfl hchanged
    · rw [tick_hands_mode] at hchanged
      by_cases hcond : s.gesture_cooldown = 0 ∧ hd.left.isSome ∧ hd.right.isSome ∧
          hd.touch_distance < touch_threshold
      · exact ⟨hd, rfl, hcond.1, hcond.2.1, hcond.2.2.1, hcond.2.2.2⟩
      · rw [if_neg hcond] at hchanged
        exact absurd rfl hchanged

/-- C2 witness: with a right hand present, a cooldown of 5 drops to 4 and the
mode does not change. -/
theorem cooldown_tick_semantics_witness :
    (process_hand_tracking { initialViewerState with gesture_cooldown := 5 }
        (FrameInput.hands touchHandsData)).gesture_cooldown = 5 - 1 ∧
    (process_hand_tracking { initialViewerState with gesture_cooldown := 5 }
        (FrameInput.hands touchHandsData)).current_state_index =
      ({ initialViewerState with gesture_cooldown := 5 } : ViewerState).current_state_index :=
  cooldown_tick_semantics.1 { initialViewerState with gesture_cooldown := 5 }
    touchHandsData rfl (by norm_num)

/-- A concrete frame on which only the right hand is detected, at palm
position (0.2, 0.2). -/
def rightFrameA : HandsData :=
  { left := none,
    right := some { x := 1/5, y := 1/5, pinch_distance := 1/10 },
    touch_distance := 1,
    time := 0 }

/-- A concrete frame on which only the right hand is detected, at palm
position (0.5, 0.5). -/
def rightFrameC : HandsData :=
  { left := none,
    right := some { x := 1/2, y := 1/2, pinch_distance := 1/10 },
    touch_distance := 1,
    time := 0 }

/-- Helper: with an idle cooldown and a remembered last position, the
right-hand controller adds the rotation delta from that position. -/
lemma process_right_hand_rotation_some (s : ViewerState) (r : RightHandData) (lp : ℚ × ℚ)
    (hcd : s.gesture_cooldown = 0) (hl : s.last_right_hand_pos = some lp) :
    (process_right_hand s r).camera_rotation_y = s.camera_rotation_y + (r.x - lp.1) * 150 := by
  unfold process_right_hand
  rw [if_neg (by omega), hl]

/-- Helper: a right-hand-only frame outside ADN mode runs exactly the
right-hand controller (after the left-present flag is cleared). -/
lemma tick_right_only_structure (s : ViewerState) (hd : HandsData) (r : RightHandData)
    (hl : hd.left = none) (hr : hd.right = some r) (hmode : s.current_state_index ≠ 1) :
    process_hand_tracking s (.hands hd) =
      process_right_hand { s with left_hand_present_this_frame := false } r := by
  unfold process_hand_tracking gesture_check adn_separation_block
  dsimp only
  rw [hl, hr]
  simp only [Option.isSome_none, Bool.false_eq_true, if_false, false_and, and_false, if_neg hmode]

/-- C3 counterexample: in basteria_mediapipe.py the right-hand tracker is
never reset.  Right hand present at frame N, absent at frame N+1 (no
detections at all), present again at frame N+2: the tracker still holds the
frame-N position after the gap, and frame N+2 applies a rotation delta
spanning the gap ((0.5 - 0.2) * 150 = 45 degrees). -/
theorem missing_hand_reset_counterexample :
    ((process_hand_tracking (process_hand_tracking initialViewerState
        (FrameInput.hands rightFrameA)) FrameInput.noHands).last_right_hand_pos =
      some (1/5, 1/5)) ∧
    ((process_hand_tracking (process_hand_tracking initialViewerState
        (FrameInput.hands rightFrameA)) FrameInput.noHands).camera_rotation_y = 0) ∧
    ((process_hand_tracking (process_hand_tracking (process_hand_tracking initialViewerState
        (FrameInput.hands rightFrameA)) FrameInput.noHands)
        (FrameInput.hands rightFrameC)).camera_rotation_y = 45) := by
  refine ⟨?_, ?_, ?_⟩
  · exact rfl
  · exact rfl
  · rw [tick_right_only_structure _ rightFrameC { x := 1/2, y := 1/2, pinch_distance := 1/10 }
      rfl rfl (by decide), process_right_hand_rotation_some _ _ (1/5, 1/5) rfl rfl]
    norm_num
    exact rfl

/-- Helper: the basteria_mediapipe.py tick never resets the right-hand
tracker on a frame without a right hand. -/
lemma tick_lastright_no_right (s : ViewerState) (hd : HandsData) (hr : hd.right = none) :
    (process_hand_tracking s (.hands hd)).last_right_hand_pos = s.last_right_hand_pos := by
  unfold process_hand_tracking
  dsimp only
  rw [hr]
  rcases hleq : hd.left with _ | l <;>
    simp only [hleq, Option.isSome_some, Option.isSome_none, process_left_hand_lastright,
      adn_separation_block_lastright, gesture_check_lastright] <;>
    split_ifs <;> rfl

/-- Helper: the hand-control-enabled flag survives the vm right-hand
controller. -/
lemma vmProcessRightHand_enabled (s : VmState) (h : VmHand) :
    (vmProcessRightHand s h).hand_control_enabled = s.hand_control_enabled := by
  unfold vmProcessRightHand
  cases s.last_right_hand_pos <;> rfl

/-- Helper: with hand control enabled, a frame with zero detections resets
both last-position trackers (basteria_viewer_mediapipe.py, lines 242-244). -/
lemma vmTick_reset (s : VmState) (he : s.hand_control_enabled = true) :
    vmTick s (.detected none none) =
      { s with last_right_hand_pos := none, last_left_hand_pos := none } := by
  unfold vmTick
  rw [if_neg (by rw [he]; simp)]
  dsimp only
  rw [if_pos ⟨rfl, rfl⟩]

/-- Helper: with hand control enabled, a right-hand-only frame runs exactly
the vm right-hand controller. -/
lemma vmTick_right_only (s : VmState) (h : VmHand) (he : s.hand_control_enabled = true) :
    vmTick s (.detected none (some h)) = vmProcessRightHand s h := by
  unfold vmTick
  rw [if_neg (by rw [he]; simp)]
  dsimp only
  rw [if_neg (by simp)]

/-- Helper: when the vm right-hand tracker is empty, the right-hand
controller applies no rotation delta. -/
lemma vmProcessRightHand_of_none (s : VmState) (h : VmHand)
    (hl : s.last_right_hand_pos = none) :
    (vmProcessRightHand s h).camera_rotation_x = s.camera_rotation_x ∧
    (vmProcessRightHand s h).camera_rotation_y = s.camera_rotation_y := by
  unfold vmProcessRightHand
  rw [hl]
  exact ⟨rfl, rfl⟩

/-- C3 amended: in basteria_mediapipe.py the right-hand tracker is never
reset (frames without a right hand leave it unchanged, so a delta spanning a
gap IS applied on reacquisition); in basteria_viewer_mediapipe.py the
trackers are reset only on frames with zero detections, and consequently the
no-spanning-delta property holds there exactly when the gap frame has no
detected hands: present at N, no detections at N+1, present at N+2 applies no
rotation delta at N+2. -/
theorem missing_hand_reset_semantics :
    (∀ (s : ViewerState) (hd : HandsData), hd.right = none →
      (process_hand_tracking s (.hands hd)).last_right_hand_pos = s.last_right_hand_pos) ∧
    (∀ s : ViewerState,
      (process_hand_tracking s .noHands).last_right_hand_pos = s.last_right_hand_pos) ∧
    (∀ s : VmState, s.hand_control_enabled = true →
      (vmTick s (.detected none none)).last_right_hand_pos = none ∧
      (vmTick s (.detected none none)).last_left_hand_pos = none) ∧
    (∀ (s : VmState) (h : VmHand), s.hand_control_enabled = true →
      s.last_right_hand_pos = none →
      (vmTick s (.detected none (some h))).camera_rotation_x = s.camera_rotation_x ∧
      (vmTick s (.detected none (some h))).camera_rotation_y = s.camera_rotation_y) ∧
    (∀ (s : VmState) (hN hC : VmHand), s.hand_control_enabled = true →
      ((vmTick (vmTick (vmTick s (.detected none (some hN))) (.detected none none))
          (.detected none (some hC))).camera_rotation_x =
        (vmTick (vmTick s (.detected none (some hN)))
          (.detected none none)).camera_rotation_x ∧
       (vmTick (vmTick (vmTick s (.detected none (some hN))) (.detected none none))
          (.detected none (some hC))).camera_rotation_y =
        (vmTick (vmTick s (.detected none (some hN)))
          (.detected none none)).camera_rotation_y)) := by
  refine ⟨tick_lastright_no_right, fun s => rfl, ?_, ?_, ?_⟩
  · intro s he
    rw [vmTick_reset s he]
    exact ⟨rfl, rfl⟩
  · intro s h he hl
    rw [vmTick_right_only s h he]
    exact vmProcessRightHand_of_none s h hl
  · intro s hN hC he
    have he1 : (vmTick s (.detected none (some hN))).hand_control_enabled = true := by
      rw [vmTick_right_only s hN he, vmProcessRightHand_enabled]
      exact he
    set s1 := vmTick s (.detected none (some hN)) with hs1
    rw [vmTick_reset s1 he1]
    have he2 : (VmState.mk s1.camera_distance s1.camera_rotation_x s1.camera_rotation_y
        s1.model_opacity s1.is_red_mode s1.model_color none none
        s1.hand_control_enabled).hand_control_enabled = true := he1
    rw [vmTick_right_only _ hC he2]
    exact vmProcessRightHand_of_none _ hC rfl

/-- C3 witness: the reset-and-no-delta behaviour of the
basteria_viewer_mediapipe.py viewer at its initial state. -/
theorem missing_hand_reset_semantics_witness :
    (vmTick (vmTick (vmTick vmInitialState
        (.detected none (some { palm := (1/5, 1/5), pinch_distance := 1/10 })))
        (.detected none none))
        (.detected none (some { palm := (1/2, 1/2), pinch_distance := 1/10 }))).camera_rotation_y
      =
    (vmTick (vmTick vmInitialState
        (.detected none (some { palm := (1/5, 1/5), pinch_distance := 1/10 })))
        (.detected none none)).camera_rotation_y :=
  (missing_hand_reset_semantics.2.2.2.2 vmInitialState
    { palm := (1/5, 1/5), pinch_distance := 1/10 }
    { palm := (1/2, 1/2), pinch_distance := 1/10 } rfl).2
